import Mathlib

/-!
Verification of the lasso-host protocol engine against its natural-language
specification.  The development shallowly embeds the relevant C sources:

* `src/encodings/cobs.c`  — COBS codec (`COBS_encode`, `COBS_decode_inline`)
* `src/encodings/escs.h`  — ESCS inline decoder (`ESCS_decode_inline`)
* `src/lasso_host.c`      — data-cell registry, memory planner, command
  interpreter, receive path, tick handler (`lasso_hostHandleCOM`)

Bytes and machine integers are modelled as `Nat` with explicit `% 2^w`
truncation at the places where the C source can wrap (uint8 payload bytes,
uint16 countdowns, uint32 update-rate counters).  Buffers are `List Nat`
with in-place writes rendered as `List.set`.  Stateful code is explicit
state passing over the `HostState` record.
-/

set_option linter.unusedVariables false

namespace Lasso

/-! ## COBS codec (src/encodings/cobs.c) -/

/-- Decoder state of the inline COBS decoder (static struct `COBS_ctrl` in
cobs.c): the latest COBS code decrementer and the number of bytes read in
the current frame.  Both are `unsigned char` in C; the source only ever
stores values below 256 in them. -/
structure COBS_ctrl where
  code : Nat
  count : Nat
deriving Repr, DecidableEq

/-- Loop body of `COBS_encode` (cobs.c lines 181-190).  The C loop walks the
payload (followed by the phantom delimiter written at `srcb[size]`), finds
the distance `c` to the next `0x00`, stores `c` in the current code slot
(which is exactly the position of the previous zero byte) and repeats on
what remains.  The first argument is a structural-recursion bound equal to
the number of bytes left (`size` in C); each iteration consumes at least
one byte, so passing the length of the list reproduces the loop exactly. -/
def COBS_encodeRuns : Nat → List Nat → List Nat
  | 0, _ => []
  | _ + 1, [] => []
  | fuel + 1, l =>
    let run := l.takeWhile (fun b => b ≠ 0)
    (run.length + 1) :: (run ++ COBS_encodeRuns fuel (l.drop (run.length + 1)))

/-- Function `COBS_encode` from cobs.c.  The C function encodes in place
inside a buffer laid out as: leading delimiter `0x00`, first code byte, the
payload, and one spare byte behind the payload which first holds the
phantom delimiter and ends up as the trailing delimiter (`0x00`, or `0xFF`
for a frame of an extended message).  The result here is the full encoded
frame read back out of that buffer. -/
def COBS_encode (payload : List Nat) (extended : Bool) : List Nat :=
  let body := payload ++ [0]
  0 :: (COBS_encodeRuns body.length body ++ [if extended then 255 else 0])

/-- Shared tail of `COBS_decode_inline` (cobs.c lines 134-144): decrement
the pending code, then either store byte `v` at index `count` of the
destination (when it still fits) or trash the message, returning
`size + 1`. -/
def COBS_write (code0 v count : Nat) (dest : List Nat) (size : Nat) :
    COBS_ctrl × List Nat × Nat :=
  if count < size then
    (⟨code0 - 1, count + 1⟩, dest.set count v, 0)
  else
    (⟨255, count⟩, dest, size + 1)

/-- Function `COBS_decode_inline` from cobs.c.  One byte `c` is fed to the
decoder in state `ctrl` with destination buffer `dest` of capacity `size`.
The result is the new decoder state, the updated destination buffer, and
the return value of the C function: the message length on a final
delimiter, `size + 1` on destination overrun, 0 otherwise. -/
def COBS_decode_inline (c : Nat) (ctrl : COBS_ctrl) (dest : List Nat)
    (size : Nat) : COBS_ctrl × List Nat × Nat :=
  if c = 0 then
    if ctrl.code = 0 then (⟨255, 0⟩, dest, ctrl.count)
    else (⟨255, 0⟩, dest, 0)
  else if ctrl.code = 255 then
    if ctrl.count ≠ 0 then (ctrl, dest, 0)
    else if 1 < c then (⟨c - 1, 0⟩, dest, 0)
    else COBS_write 1 0 0 dest size
  else if ctrl.code = 0 then
    COBS_write c 0 ctrl.count dest size
  else
    COBS_write ctrl.code c ctrl.count dest size

/-- Feed a byte sequence to the inline COBS decoder starting from state
`ctrl`; the final `Nat` component is the return value of the last call. -/
def COBS_decode_run (input : List Nat) (ctrl : COBS_ctrl) (dest : List Nat)
    (size : Nat) : COBS_ctrl × List Nat × Nat :=
  input.foldl (fun acc b => COBS_decode_inline b acc.1 acc.2.1 size)
    (ctrl, dest, 0)

/-! ## ESCS codec (src/encodings/escs.h) -/

/-- Decoder state of the inline ESCS decoder (static struct `ESCS_ctrl` in
escs.h): decoding state (0 = idle, 125 = escape seen, 255 = in frame) and
the number of bytes read in the current frame. -/
structure ESCS_ctrl where
  state : Nat
  count : Nat
deriving Repr, DecidableEq

/-- Function `ESCS_decode_inline` from escs.h.  Delimiter is `0x7E` (126),
escape is `0x7D` (125); an escaped byte is restored by adding `0x20` (the
addition is on a uint8, hence the `% 256`).  Return value as in the C
source: message length on a delimiter closing a non-empty frame,
`size + 1` on destination overrun, 0 otherwise. -/
def ESCS_decode_inline (c : Nat) (ctrl : ESCS_ctrl) (dest : List Nat)
    (size : Nat) : ESCS_ctrl × List Nat × Nat :=
  if c = 126 then
    if ctrl.count ≠ 0 then (⟨255, 0⟩, dest, ctrl.count)
    else (⟨255, ctrl.count⟩, dest, 0)
  else if c = 125 then
    (⟨125, ctrl.count⟩, dest, 0)
  else if ctrl.state ≠ 0 then
    let st := if ctrl.state = 125 then 255 else ctrl.state
    let v := if ctrl.state = 125 then (c + 32) % 256 else c
    if ctrl.count < size then
      (⟨st, ctrl.count + 1⟩, dest.set ctrl.count v, 0)
    else
      (⟨0, ctrl.count⟩, dest, size + 1)
  else
    (ctrl, dest, 0)

/-- Feed a byte sequence to the inline ESCS decoder starting from state
`ctrl`; the final `Nat` component is the return value of the last call. -/
def ESCS_decode_run (input : List Nat) (ctrl : ESCS_ctrl) (dest : List Nat)
    (size : Nat) : ESCS_ctrl × List Nat × Nat :=
  input.foldl (fun acc b => ESCS_decode_inline b acc.1 acc.2.1 size)
    (ctrl, dest, 0)

/-! ## Host data model (src/lasso_host.c)

The lasso host keeps its state in file-scope singletons; here they are
collected in the record `HostState`.  Compile-time configuration macros
(`LASSO_HOST_...` in lasso_host_config.h) become the record `Config`, and
the preprocessor conditionals of the source become ordinary conditionals
on that record.  External collaborators (the transport callback, the CRC
callback, cell memory and the textual formatting of replies, whose sizes
depend on cell memory) enter the tick handler through the record `Env`.
Heap allocation is assumed to succeed and data-cell pointers to be valid
(registration failures are fatal at bootstrap); the optional user callbacks
(`actCallback`, `perCallback`, `ctlCallback`) are not installed. -/

/-- Encodings, numbered as in lasso_host.h: NONE 0, RN 1, COBS 2, ESCS 3. -/
inductive Encoding where
  | NONE
  | RN
  | COBS
  | ESCS
deriving Repr, DecidableEq

/-- Numeric value of an encoding (lasso_host.h lines 238-248); the source
compares encodings with `<` on these codes. -/
def Encoding.code : Encoding → Nat
  | .NONE => 0
  | .RN => 1
  | .COBS => 2
  | .ESCS => 3

/-- Compile-time configuration of the host (lasso_host_config.h). -/
structure Config where
  command_encoding : Encoding
  strobe_encoding : Encoding
  strobe_dynamic : Bool
  strobe_crc_enable : Bool
  command_crc_enable : Bool
  crc_bytewidth : Nat
  command_buffer_size : Nat
  command_timeout_ticks : Nat
  response_buffer_size : Nat
  response_latency_ticks : Nat
  strobe_period_ticks : Nat
  strobe_period_min_ticks : Nat
  strobe_period_max_ticks : Nat
  advertise_period_ticks : Nat
  roundtrip_latency_ticks : Nat
  max_frame_size : Nat
  host_timestamp : Bool
deriving Repr, DecidableEq

/-- Errno values used by the host (lasso_errno.h fallbacks / newlib). -/
def ENODATA : Nat := 61

/-- Errno for an illegal byte sequence. -/
def EILSEQ : Nat := 138

/-- Errno for a receive-buffer overflow. -/
def EOVERFLOW : Nat := 139

/-- Errno raised when a complete command is still pending. -/
def ENOSPC : Nat := 28

/-- Struct `DATACELL` of lasso_host.c, restricted to the fields the claims
are about.  `type` is the packed 16-bit type word (bit 0 enable, bits 1-3
byte width, bits 4-7 kind, bit 8 writeable, bit 9 permanent), `count` the
array length, `update_rate` the 32-bit reload/running counter pair.  The
name, unit, memory pointer and change callback are not modelled. -/
structure DataCell where
  type : Nat
  count : Nat
  update_rate : Nat
deriving Repr, DecidableEq

/-- Struct `DATAFRAME` of lasso_host.c.  The buffer and frame pointers (and
the `COBS_backup` byte they serve) are not modelled; `Byte_count` is the
number of bytes remaining to transmit, `Bytes_max` the buffer capacity,
`Bytes_total` the current payload length. -/
structure DataFrame where
  countdown : Nat
  valid : Nat
  Byte_count : Nat
  Bytes_max : Nat
  Bytes_total : Nat
deriving Repr, DecidableEq

/-- File-scope state of lasso_host.c: the data-cell chain (in registration
order), the receive path, the scheduler flags and the two data frames. -/
structure HostState where
  dataCells : List DataCell
  dataCellCount : Nat
  dataCellMaskBytes : Nat
  receiveBufferAllocated : Bool
  receiveBuffer : List Nat
  receiveBufferIndex : Nat
  receiveTimeout : Nat
  lasso_strobing : Bool
  lasso_advertise : Bool
  strobe : DataFrame
  response : DataFrame
  lasso_strobe_period : Nat
  lasso_overdrive : Nat
  lasso_timestamp : Nat
deriving Repr, DecidableEq

/-- Initial values of the file-scope variables of lasso_host.c (lines
369-410): no cells, no receive buffer yet, advertising on, strobing off,
strobe frame counting down the default strobe period, response frame
counting down the round-trip latency. -/
def initState (cfg : Config) : HostState where
  dataCells := []
  dataCellCount := 0
  dataCellMaskBytes := 0
  receiveBufferAllocated := false
  receiveBuffer := []
  receiveBufferIndex := 0
  receiveTimeout := 0
  lasso_strobing := false
  lasso_advertise := true
  strobe := ⟨cfg.strobe_period_ticks, 1, 0, 0, 0⟩
  response := ⟨cfg.roundtrip_latency_ticks, 0, 0, cfg.response_buffer_size, 0⟩
  lasso_strobe_period := cfg.strobe_period_ticks
  lasso_overdrive := 0
  lasso_timestamp := 0

/-- Byte footprint of a data cell (lasso_host.c lines 2190-2195): `count`
times the byte-width field (`type & 0x000E`), or `count` when that field
is zero (width 1). -/
def dataCell_Bytes (dC : DataCell) : Nat :=
  if dC.type &&& 14 ≠ 0 then dC.count * (dC.type &&& 14) else dC.count

/-- Function `lasso_hostRegisterDataCell` (lasso_host.c lines 2136-2205),
success path: append the cell to the chain, force-enable it when the
permanent bit (0x0200) is set, store the update-rate pair (the dynamic
variant packs the 16-bit rate into both halves, the static variant stores
1/1), grow `strobe.Bytes_max` by the cell footprint and `Bytes_total` too
when the cell is enabled. -/
def lasso_hostRegisterDataCell (cfg : Config) (ty cnt update_rate : Nat)
    (st : HostState) : HostState :=
  let ty := if ty &&& 512 ≠ 0 then ty ||| 1 else ty
  let dC : DataCell :=
    ⟨ty, cnt, if cfg.strobe_dynamic
              then update_rate * 65536 + update_rate else 65537⟩
  let bytes := dataCell_Bytes dC
  { st with
    dataCells := st.dataCells ++ [dC]
    dataCellCount := st.dataCellCount + 1
    strobe := { st.strobe with
      Bytes_max := st.strobe.Bytes_max + bytes
      Bytes_total := if ty &&& 1 ≠ 0 then st.strobe.Bytes_total + bytes
                     else st.strobe.Bytes_total } }

/-- Mask bytes reserved for dynamic strobing (lasso_host.c line 2252):
`((dataCellCount - 1) >> 3) + 1` computed in C int arithmetic, which gives
0 for a count of 0 (arithmetic shift of -1) and otherwise the number of
bytes needed for one bit per cell. -/
def maskBytesOf (n : Nat) : Nat :=
  if n = 0 then 0 else (n - 1) / 8 + 1

/-- Rounding of a buffer size to the 4-byte alignment boundary
(lasso_host.c lines 2304-2313, LASSO_MEMORY_ALIGN = 4). -/
def alignUp4 (x : Nat) : Nat :=
  if x % 4 ≠ 0 then x - x % 4 + 4 else x

/-- Function `lasso_hostRegisterMEM` (lasso_host.c lines 2240-2356),
success path.  In frame-stuffed strobe encodings one byte is reserved for
the invalid-MessagePack discriminator 0xC1; dynamic strobing reserves the
mask bytes; enabled CRCs reserve their byte width; each encoding adds its
delimiter overhead to `Bytes_max`; both `Bytes_max` values are rounded up
to the alignment boundary; ESCS doubles the allocation and halves the
logical `Bytes_max` back after allocating; finally the buffers (including
the receive buffer) are allocated. -/
def lasso_hostRegisterMEM (cfg : Config) (st : HostState) : HostState :=
  let stuffed := cfg.strobe_encoding = Encoding.COBS ∨
                 cfg.strobe_encoding = Encoding.ESCS
  let st := if stuffed then
      { st with strobe := { st.strobe with
          Bytes_max := st.strobe.Bytes_max + 1
          Bytes_total := st.strobe.Bytes_total + 1 } }
    else st
  let st := if cfg.strobe_dynamic then
      let m := maskBytesOf st.dataCellCount
      { st with dataCellMaskBytes := m
                strobe := { st.strobe with
                  Bytes_max := st.strobe.Bytes_max + m
                  Bytes_total := st.strobe.Bytes_total + m } }
    else st
  let st := if cfg.strobe_crc_enable then
      { st with strobe := { st.strobe with
          Bytes_max := st.strobe.Bytes_max + cfg.crc_bytewidth
          Bytes_total := st.strobe.Bytes_total + cfg.crc_bytewidth } }
    else st
  let st := if cfg.command_crc_enable then
      { st with response := { st.response with
          Bytes_max := st.response.Bytes_max + cfg.crc_bytewidth } }
    else st
  let st := match cfg.strobe_encoding with
    | Encoding.ESCS =>
        { st with strobe := { st.strobe with
            Bytes_max := st.strobe.Bytes_max + 2 } }
    | Encoding.COBS =>
        { st with strobe := { st.strobe with
            Bytes_max := st.strobe.Bytes_max + 3 } }
    | _ => st
  let st := match cfg.command_encoding with
    | Encoding.ESCS =>
        { st with response := { st.response with
            Bytes_max := st.response.Bytes_max + 2 } }
    | Encoding.COBS =>
        { st with response := { st.response with
            Bytes_max := st.response.Bytes_max + 3 } }
    | Encoding.RN =>
        { st with response := { st.response with
            Bytes_max := st.response.Bytes_max + 2 } }
    | Encoding.NONE => st
  let st := { st with
    strobe := { st.strobe with Bytes_max := alignUp4 st.strobe.Bytes_max }
    response := { st.response with
      Bytes_max := alignUp4 st.response.Bytes_max } }
  let st := if cfg.strobe_encoding = Encoding.ESCS then
      { st with strobe := { st.strobe with
          Bytes_max := st.strobe.Bytes_max * 2 } }
    else st
  let st := if cfg.command_encoding = Encoding.ESCS then
      { st with response := { st.response with
          Bytes_max := st.response.Bytes_max * 2 } }
    else st
  let st := { st with
    receiveBufferAllocated := true
    receiveBuffer := List.replicate cfg.command_buffer_size 0 }
  let st := if cfg.strobe_encoding = Encoding.ESCS then
      { st with strobe := { st.strobe with
          Bytes_max := st.strobe.Bytes_max / 2 } }
    else st
  if cfg.command_encoding = Encoding.ESCS then
    { st with response := { st.response with
        Bytes_max := st.response.Bytes_max / 2 } }
  else st

/-- Loop of `lasso_hostSeekDatacell` (lasso_host.c lines 715-743): walk
the chain while `num` is nonzero, accumulating the byte footprint of every
enabled cell passed over. -/
def lasso_hostSeekDatacellAux : Nat → List DataCell → Nat →
    Option DataCell × Nat
  | 0, dCs, pos => (dCs.head?, pos)
  | _ + 1, [], pos => (none, pos)
  | num + 1, dC :: dCs, pos =>
    lasso_hostSeekDatacellAux num dCs
      (pos + (if dC.type &&& 1 ≠ 0 then dataCell_Bytes dC else 0))

/-- Function `lasso_hostSeekDatacell`: the cell at position `num` of the
registration order (none when out of range) together with its byte
position in the strobe frame. -/
def lasso_hostSeekDatacell (dCs : List DataCell) (num : Nat) :
    Option DataCell × Nat :=
  lasso_hostSeekDatacellAux num dCs 0

/-- Case `LASSO_HOST_SET_ADVERTISE` of `lasso_hostInterpreteCommand`
(lasso_host.c lines 1626-1641): turn advertising on and strobing off; the
command never sends a reply.  Note that `strobe.Byte_count` is not
touched. -/
def lasso_cmdSetAdvertise (st : HostState) : HostState :=
  let st := { st with lasso_advertise := true }
  if st.lasso_strobing then { st with lasso_strobing := false } else st

/-- State effect of case `LASSO_HOST_SET_STROBE_PERIOD` (lasso_host.c
lines 1643-1687) for a parsed period `sparam`: when the period is within
bounds it is stored (no period-change callback installed) and a countdown
larger than the new period is clamped to it. -/
def lasso_cmdSetStrobePeriod (cfg : Config) (sparam : Nat)
    (st : HostState) : HostState :=
  if cfg.strobe_period_min_ticks ≤ sparam ∧
     sparam ≤ cfg.strobe_period_max_ticks then
    let st := { st with lasso_strobe_period := sparam }
    if st.strobe.countdown > st.lasso_strobe_period then
      { st with strobe := { st.strobe with
          countdown := st.lasso_strobe_period } }
    else st
  else st

/-- State effect of case `LASSO_HOST_SET_DATASPACE_STROBE` (lasso_host.c
lines 1689-1734) for a parsed flag `lparam`: switch strobing on (with the
countdown forced to 1 when strobing was off, so the next tick strobes)
or off; when advertising was on, cancel the remaining advertise frames by
zeroing `strobe.Byte_count` and stop advertising. -/
def lasso_cmdSetDataSpaceStrobe (lparam : Nat) (st : HostState) :
    HostState :=
  let st :=
    if lparam ≠ 0 then
      let st := if ¬st.lasso_strobing then
          { st with strobe := { st.strobe with countdown := 1 } }
        else st
      { st with lasso_strobing := true }
    else { st with lasso_strobing := false }
  if st.lasso_advertise then
    { st with strobe := { st.strobe with Byte_count := 0 }
              lasso_advertise := false }
  else st

/-- State effect of case `LASSO_HOST_SET_DATACELL_STROBE` (lasso_host.c
lines 1736-1798) for a parsed cell number and flag: rejected outright when
strobing is on; otherwise the addressed cell (found via
`lasso_hostSeekDatacell`) has its enable bit set or cleared, and
`strobe.Bytes_total` grows or shrinks by `count` times the byte width
(width 0 counting as 1).  The source checks only the enable bit, never the
permanent bit. -/
def lasso_cmdSetDataCellStrobe (num : Nat) (bparam : Bool)
    (st : HostState) : HostState :=
  if st.lasso_strobing then st
  else
    match (lasso_hostSeekDatacell st.dataCells num).1 with
    | none => st
    | some dC =>
      if bparam then
        if dC.type &&& 1 = 0 then
          let w := dC.type &&& 14
          let w := if w = 0 then 1 else w
          { st with
            dataCells := st.dataCells.set num { dC with type := dC.type ||| 1 }
            strobe := { st.strobe with
              Bytes_total := st.strobe.Bytes_total + dC.count * w } }
        else st
      else
        if dC.type &&& 1 ≠ 0 then
          let w := dC.type &&& 14
          let w := if w = 0 then 1 else w
          { st with
            dataCells := st.dataCells.set num
              { dC with type := dC.type &&& 65534 }
            strobe := { st.strobe with
              Bytes_total := st.strobe.Bytes_total - dC.count * w } }
        else st

/-- Parsed form of a client command (lasso_host.c lines 152-163).  The
ASCII / MessagePack argument parsing itself (sscanf, PackReader) is not
modelled; the interpreter below dispatches on the parsed command. -/
inductive Command where
  | getProtocolInfo
  | getTimingInfo
  | getDataCellCount
  | getDataCellParams (num : Nat)
  | getDataCellValue (num : Nat)
  | setAdvertise
  | setStrobePeriod (sparam : Nat)
  | setDataCellStrobe (num : Nat) (bparam : Bool)
  | setDataCellValue (num : Nat)
  | setDataSpaceStrobe (lparam : Nat)
deriving Repr, DecidableEq

/-- GET commands are the opcodes at or above the ASCII code of the letter
a (lasso_host.c line 1409). -/
def Command.isGet : Command → Bool
  | .getProtocolInfo | .getTimingInfo | .getDataCellCount
  | .getDataCellParams _ | .getDataCellValue _ => true
  | _ => false

/-- Function `lasso_hostInterpreteCommand` (lasso_host.c lines 1329-1923),
modelled on its state effects.  `response.Bytes_total` is zeroed on entry
(line 1357); GET opcodes are dropped while strobing when strobes cannot
interleave with replies (strobe encoding below COBS, lines 1408-1412);
the SET cases mutate the scheduler and strobe state as modelled above; on
the paths that fall through to the reply formatter, `response.Bytes_total`
becomes the length of the formatted reply, which depends on cell memory
and printf rendering and therefore enters the model as the environment
input `replyLen`.  The silent paths (`return` in the C source) leave
`response.Bytes_total` at 0. -/
def lasso_hostInterpreteCommand (cfg : Config) (cmd : Command)
    (replyLen : Nat) (st : HostState) : HostState :=
  let st0 := { st with response := { st.response with Bytes_total := 0 } }
  let withReply := fun (s : HostState) =>
    { s with response := { s.response with Bytes_total := replyLen } }
  if cfg.strobe_encoding.code < Encoding.COBS.code ∧ st0.lasso_strobing ∧
     cmd.isGet then
    st0
  else
    match cmd with
    | .getProtocolInfo | .getTimingInfo | .getDataCellCount
    | .getDataCellParams _ | .getDataCellValue _ =>
        withReply st0
    | .setAdvertise => lasso_cmdSetAdvertise st0
    | .setStrobePeriod sparam =>
        let st1 := lasso_cmdSetStrobePeriod cfg sparam st0
        if ¬(cfg.strobe_period_min_ticks ≤ sparam ∧
             sparam ≤ cfg.strobe_period_max_ticks) then
          withReply st1
        else if st1.lasso_advertise then st1
        else if cfg.strobe_encoding.code < Encoding.COBS.code ∧
                st1.lasso_strobing then st1
        else withReply st1
    | .setDataCellStrobe num bparam =>
        if st0.lasso_strobing then st0
        else
          let st1 := lasso_cmdSetDataCellStrobe num bparam st0
          if st1.lasso_advertise then st1 else withReply st1
    | .setDataCellValue _ =>
        -- the write goes to cell memory, which is not part of the state
        if st0.lasso_advertise then st0
        else if cfg.strobe_encoding.code < Encoding.COBS.code ∧
                st0.lasso_strobing then st0
        else withReply st0
    | .setDataSpaceStrobe lparam =>
        let wasAdvertising := st0.lasso_advertise
        let st1 := lasso_cmdSetDataSpaceStrobe lparam st0
        if wasAdvertising then st1
        else if cfg.strobe_encoding.code < Encoding.COBS.code then st1
        else withReply st1

/-- Function `lasso_hostReceiveByte` (lasso_host.c lines 2365-2425) in the
RN command encoding.  A `\n` (10) on an empty buffer reports `ENODATA`; a
`\n` after a stored `\r` (13) publishes the frame length in
`response.valid` and resets the index; a `\n` after anything else resets
the index and reports `EILSEQ`.  Other bytes are stored (refreshing the
timeout) unless a complete command is still pending (`ENOSPC`).  A full
buffer resets the index and reports `EOVERFLOW`. -/
def lasso_hostReceiveByte (cfg : Config) (b : Nat) (st : HostState) :
    HostState × Nat :=
  if st.receiveBufferIndex < cfg.command_buffer_size then
    if b = 10 then
      if st.receiveBufferIndex = 0 then (st, ENODATA)
      else if st.receiveBuffer.getD (st.receiveBufferIndex - 1) 0 = 13 then
        ({ st with
            response := { st.response with valid := st.receiveBufferIndex }
            receiveBufferIndex := 0 }, 0)
      else ({ st with receiveBufferIndex := 0 }, EILSEQ)
    else if st.response.valid = 0 then
      ({ st with
          receiveBuffer := st.receiveBuffer.set st.receiveBufferIndex b
          receiveBufferIndex := st.receiveBufferIndex + 1
          receiveTimeout := cfg.command_timeout_ticks }, 0)
    else ({ st with receiveBufferIndex := 0 }, ENOSPC)
  else ({ st with receiveBufferIndex := 0 }, EOVERFLOW)

/-- Function `lasso_hostCountdown` (lasso_host.c lines 2445-2454): subtract
`count` from the strobe countdown, saturating at zero instead of wrapping
the uint16 below zero. -/
def lasso_hostCountdown (count : Nat) (st : HostState) : HostState :=
  if count > st.strobe.countdown then
    { st with strobe := { st.strobe with countdown := 0 } }
  else
    { st with strobe := { st.strobe with
        countdown := st.strobe.countdown - count } }

/-- Decrement of a uint16 counter, wrapping at zero (the C source applies
`--` to uint16 fields that can be zero). -/
def dec16 (n : Nat) : Nat :=
  if n = 0 then 65535 else n - 1

/-- Bytes the sampler copies for one included cell (lasso_host.c lines
616-668): `count` bytes for width 1, `2 * count` for width 2, `4 * count`
for width 4; the switch has no case for width code 8, so such a cell
copies nothing. -/
def sampledBytes (dC : DataCell) : Nat :=
  if dC.type &&& 14 = 0 then dC.count
  else if dC.type &&& 14 = 2 then 2 * dC.count
  else if dC.type &&& 14 = 4 then 4 * dC.count
  else 0

/-- Function `lasso_hostSampleDataCells` (lasso_host.c lines 557-708),
modelled on its state effects.  In static strobing the sampler only copies
cell memory into the strobe buffer (neither is part of the state).  In
dynamic strobing every enabled cell has the running half of its 32-bit
`update_rate` pre-decremented (with uint32 wrap-around); a cell whose
running half reaches zero is reloaded from the upper half and included in
this cycle, and `strobe.Bytes_total` is recomputed as the discriminator
byte plus the mask bytes plus the bytes of the included cells (lines
682-688). -/
def lasso_hostSampleDataCells (cfg : Config) (st : HostState) : HostState :=
  if ¬cfg.strobe_dynamic then st
  else
    let step : DataCell → DataCell × Nat := fun dC =>
      if dC.type &&& 1 ≠ 0 then
        let u := (dC.update_rate + 4294967295) % 4294967296
        if u % 65536 = 0 then
          ({ dC with update_rate := (u + u / 65536) % 4294967296 },
           sampledBytes dC)
        else ({ dC with update_rate := u }, 0)
      else (dC, 0)
    let stepped := st.dataCells.map step
    { st with
      dataCells := stepped.map Prod.fst
      strobe := { st.strobe with
        Bytes_total :=
          1 + st.dataCellMaskBytes + (stepped.map Prod.snd).sum } }

/-- Timeout phase of `lasso_hostHandleCOM` (lasso_host.c lines 2498-2504):
a pending receive timeout is decremented and, on expiry, the receive
buffer index is reset. -/
def lasso_handleTimeout (st : HostState) : HostState :=
  if st.receiveTimeout > 0 then
    let t := st.receiveTimeout - 1
    if t = 0 then { st with receiveTimeout := t, receiveBufferIndex := 0 }
    else { st with receiveTimeout := t }
  else st

/-- Advertise/strobe phase of `lasso_hostHandleCOM` (lasso_host.c lines
2506-2543).  While advertising, the countdown expiring loads the signature
frame (16 bytes) for transmission.  While strobing, the countdown expiring
reloads the period and either flags overdrive (previous frame still
transmitting) or samples the cells and loads the strobe frame. -/
def lasso_handleAdvertiseStrobe (cfg : Config) (st : HostState) :
    HostState :=
  if st.lasso_advertise then
    let cd := dec16 st.strobe.countdown
    if cd = 0 then
      { st with strobe := { st.strobe with
          countdown := cfg.advertise_period_ticks
          Byte_count := 16 } }
    else { st with strobe := { st.strobe with countdown := cd } }
  else if st.lasso_strobing then
    let cd := dec16 st.strobe.countdown
    if cd = 0 then
      let st := { st with strobe := { st.strobe with
          countdown := st.lasso_strobe_period } }
      if st.strobe.Byte_count > 0 then
        { st with lasso_overdrive := 1
                  strobe := { st.strobe with valid := 0 } }
      else
        let st := lasso_hostSampleDataCells cfg st
        { st with strobe := { st.strobe with
            Byte_count := st.strobe.Bytes_total } }
    else { st with strobe := { st.strobe with countdown := cd } }
  else st

/-- External inputs of one tick: the parsed command waiting in the receive
buffer, the length of the formatted reply, the verdict of the command-CRC
callback, whether the transport reports busy, and the length an ESCS
encode pass produces (it depends on the buffer contents). -/
structure Env where
  cmd : Command
  replyLen : Nat
  crcOk : Bool
  comBusy : Bool
  escsLen : Nat
deriving Repr, DecidableEq

/-- Response phase of `lasso_hostHandleCOM` (lasso_host.c lines
2545-2581).  When the latency countdown expires and no response bytes are
in flight and a valid command is pending: a failed command CRC hangs the
host (`while(1)`, modelled as `none`); a control passthrough frame (first
byte 0xC1 = 193) is handed to the control callback without loading a
reply; otherwise the interpreter runs and the response frame is loaded
with `Bytes_total` bytes.  In every case the pending command is consumed
(`valid := 0`). -/
def lasso_handleResponse (cfg : Config) (env : Env) (st : HostState) :
    Option HostState :=
  let cd := dec16 st.response.countdown
  if cd = 0 then
    let st := { st with response := { st.response with
        countdown := cfg.response_latency_ticks } }
    if st.response.Byte_count = 0 ∧ st.response.valid > 0 then
      if cfg.command_crc_enable ∧ ¬env.crcOk then none
      else if st.receiveBuffer.head? = some 193 then
        some { st with response := { st.response with valid := 0 } }
      else
        let st := lasso_hostInterpreteCommand cfg env.cmd env.replyLen st
        some { st with response := { st.response with
            Byte_count := st.response.Bytes_total
            valid := 0 } }
    else some st
  else some { st with response := { st.response with countdown := cd } }

/-- Which frame a transmit attempt was made for. -/
inductive TxTarget where
  | strobe
  | response
deriving Repr, DecidableEq

/-- Function `lasso_hostTransmitDataFrame` (lasso_host.c lines 1944-2022).
Nothing is sent when `Byte_count` is zero.  Under COBS command encoding,
frames other than the advertise signature are chunked to 253 payload
bytes, encoded in place when still needed, and sent with 3 bytes of
overhead; under ESCS they are encoded into the lower buffer half, the
encoded length (an environment input here, since it depends on the buffer
contents) becoming the new `Byte_count`; everything else is chunked to
`max_frame_size`.  Exactly one `comCallback` invocation is attempted; on
`EBUSY` the frame is left unchanged for a retry next tick.  The result is
the updated frame, the boolean C return value, and whether `comCallback`
was invoked. -/
def lasso_hostTransmitDataFrame (cfg : Config) (comBusy : Bool)
    (isResponse advertise : Bool) (escsLen : Nat) (fr : DataFrame) :
    DataFrame × Bool × Bool :=
  if fr.Byte_count > 0 then
    let encodeHere :=
      if cfg.command_encoding ≠ cfg.strobe_encoding then isResponse
      else ¬advertise
    if cfg.command_encoding = Encoding.COBS ∧ encodeHere then
      let num := min fr.Byte_count 253
      if ¬comBusy then
        ({ fr with Byte_count := fr.Byte_count - num }, true, true)
      else (fr, false, true)
    else
      let fr :=
        if cfg.command_encoding = Encoding.ESCS ∧ encodeHere then
          { fr with Byte_count := escsLen }
        else fr
      let num := min fr.Byte_count cfg.max_frame_size
      if ¬comBusy then
        ({ fr with Byte_count := fr.Byte_count - num }, true, true)
      else (fr, false, true)
  else (fr, false, false)

/-- Transmit pump of `lasso_hostHandleCOM` (lasso_host.c lines 2583-2590):
response frames are sent only when no strobe bytes are pending; otherwise
the strobe frame is sent.  The returned list collects the `comCallback`
attempts of this tick. -/
def lasso_TXpump (cfg : Config) (env : Env) (st : HostState) :
    HostState × List TxTarget :=
  if st.strobe.Byte_count = 0 then
    let r := lasso_hostTransmitDataFrame cfg env.comBusy true
      st.lasso_advertise env.escsLen st.response
    ({ st with response := r.1 },
     if r.2.2 then [TxTarget.response] else [])
  else
    let r := lasso_hostTransmitDataFrame cfg env.comBusy false
      st.lasso_advertise env.escsLen st.strobe
    ({ st with strobe := r.1 },
     if r.2.2 then [TxTarget.strobe] else [])

/-- Phases of `lasso_hostHandleCOM` that run before the transmit pump:
receive timeout, advertise/strobe countdown, response handling. -/
def lasso_handleCOMphases (cfg : Config) (env : Env) (st : HostState) :
    Option HostState :=
  lasso_handleResponse cfg env
    (lasso_handleAdvertiseStrobe cfg (lasso_handleTimeout st))

/-- Function `lasso_hostHandleCOM` (lasso_host.c lines 2489-2595), one
tick.  Before `lasso_hostRegisterMEM` has allocated the receive buffer the
handler returns immediately.  Otherwise the three phases run, then exactly
one transmit attempt is made, then the timestamp counter advances.  The
result is `none` when the tick hangs in the command-CRC error handler. -/
def lasso_hostHandleCOM (cfg : Config) (env : Env) (st : HostState) :
    Option (HostState × List TxTarget) :=
  if st.receiveBufferAllocated = false then some (st, [])
  else
    match lasso_handleCOMphases cfg env st with
    | none => none
    | some st1 =>
      let r := lasso_TXpump cfg env st1
      let st2 := if cfg.host_timestamp then
          { r.1 with lasso_timestamp := r.1.lasso_timestamp + 1 }
        else r.1
      some (st2, r.2)

/-! ## Spec-side formulas and test fixtures -/

/-- Contribution of one data cell to the strobe size law, following the
wording of the spec: `count × max(byte_width, 1)` for an enabled cell and
0 for a disabled one (`byte_width` is the raw field `type & 0x000E`, so a
width code of 0 counts as one byte). -/
def cellTerm (dC : DataCell) : Nat :=
  if dC.type &&& 1 ≠ 0 then dC.count * max (dC.type &&& 14) 1 else 0

/-- Sum of the strobe contributions of a list of cells. -/
def cellSum (dCs : List DataCell) : Nat :=
  (dCs.map cellTerm).sum

/-- The operations that change the active data space: a successful data
cell registration, or a SetDataCellStrobe command with parsed payload. -/
inductive DataOp where
  | register (ty cnt update_rate : Nat)
  | strobeCmd (num : Nat) (bparam : Bool)
deriving Repr, DecidableEq

/-- Application of one data-space operation to the host state. -/
def applyDataOp (cfg : Config) (op : DataOp) (st : HostState) : HostState :=
  match op with
  | .register ty cnt r => lasso_hostRegisterDataCell cfg ty cnt r st
  | .strobeCmd num b => lasso_cmdSetDataCellStrobe num b st

/-- Application of a sequence of data-space operations, first to last. -/
def applyDataOps (cfg : Config) (ops : List DataOp) (st : HostState) :
    HostState :=
  ops.foldl (fun s op => applyDataOp cfg op s) st

/-- Right-hand side of the strobe size law as the spec words it: the sum
over enabled cells of `count × max(byte_width, 1)`, plus the mask bytes in
dynamic mode, plus the CRC byte width when the strobe CRC is enabled, plus
one byte for the MsgPack discriminator when the strobe is byte-stuffed. -/
def strobeSizeLawRhs (cfg : Config) (st : HostState) : Nat :=
  cellSum st.dataCells
  + (if cfg.strobe_dynamic then st.dataCellMaskBytes else 0)
  + (if cfg.strobe_crc_enable then cfg.crc_bytewidth else 0)
  + (if cfg.strobe_encoding = Encoding.COBS ∨
        cfg.strobe_encoding = Encoding.ESCS then 1 else 0)

/-- Iterated byte reception: feed a byte list to `lasso_hostReceiveByte`;
the `Nat` component is the return value of the last call. -/
def receiveBytes (cfg : Config) (bs : List Nat) (st : HostState) :
    HostState × Nat :=
  bs.foldl (fun acc b => lasso_hostReceiveByte cfg b acc.1) (st, 0)

/-- The default configuration of lasso_host_config.h: RN commands, raw
static strobes, strobe CRC of width 2, 16-byte command buffer, 96-byte
response buffer, 10-tick strobe period, 250 ms advertise period at a
10 ms tick, and the round-trip latency the macro computes for baud
115200. -/
def sampleCfg : Config where
  command_encoding := Encoding.RN
  strobe_encoding := Encoding.NONE
  strobe_dynamic := false
  strobe_crc_enable := true
  command_crc_enable := false
  crc_bytewidth := 2
  command_buffer_size := 16
  command_timeout_ticks := 5
  response_buffer_size := 96
  response_latency_ticks := 5
  strobe_period_ticks := 10
  strobe_period_min_ticks := 10
  strobe_period_max_ticks := 65535
  advertise_period_ticks := 25
  roundtrip_latency_ticks := 7
  max_frame_size := 4096
  host_timestamp := true

/-- A benign tick environment: no pending command semantics needed, CRC
passes, transport not busy. -/
def sampleEnv : Env where
  cmd := Command.getDataCellCount
  replyLen := 6
  crcOk := true
  comBusy := false
  escsLen := 0

/-- Host state after boot under the default configuration: all memory
registered, no data cells. -/
def sampleBootState : HostState :=
  lasso_hostRegisterMEM sampleCfg (initState sampleCfg)

/-- A host state holding one enabled, writeable, permanent uint16[4] cell
(type 0x0223 = enable | width 2 | uint kind | permanent): idle (neither
advertising nor strobing), with the strobe frame sized to the cell plus
the 2 CRC bytes. -/
def samplePermanentState : HostState where
  dataCells := [⟨547, 4, 65537⟩]
  dataCellCount := 1
  dataCellMaskBytes := 0
  receiveBufferAllocated := true
  receiveBuffer := List.replicate 16 0
  receiveBufferIndex := 0
  receiveTimeout := 0
  lasso_strobing := false
  lasso_advertise := false
  strobe := ⟨10, 1, 0, 12, 10⟩
  response := ⟨5, 0, 0, 100, 0⟩
  lasso_strobe_period := 10
  lasso_overdrive := 0
  lasso_timestamp := 0

/-- The same host mid-advertisement: advertising is on and 16 bytes of the
signature frame are still in flight (`strobe.Byte_count = 16`). -/
def sampleAdvertiseState : HostState :=
  { samplePermanentState with
    lasso_advertise := true
    strobe := ⟨10, 1, 16, 12, 10⟩ }

/-- The booted host after receiving the single byte `X`: one byte stored,
index 1. -/
def sampleMidReceiveState : HostState :=
  (receiveBytes sampleCfg [88] sampleBootState).1

/-- The booted host after the pre-pump phases of one idle tick: both
countdowns decremented by one. -/
def sampleTickMid : HostState :=
  { sampleBootState with
    strobe := ⟨9, 1, 0, 4, 2⟩
    response := ⟨6, 0, 0, 100, 0⟩ }

end Lasso

namespace Lasso

/-- C1: the spec example round-trips, but the universal round-trip claim is
broken by the decoder: encoding the one-byte payload `[0x00]` yields
`[0x00, 0x01, 0x01, 0x00]` (correct COBS), yet feeding that frame back to
`COBS_decode_inline` writes a zero byte twice (once in the first-code
branch for code 1, once again when the next code byte arrives) and returns
length 2 instead of 1.  The example of scenario S6 encodes exactly as the
spec states and decodes back to the original payload. -/
theorem cobs_roundtrip_code_bug :
    COBS_encode [0] false = [0, 1, 1, 0] ∧
    COBS_decode_run (COBS_encode [0] false) ⟨255, 255⟩ [7, 7, 7, 7] 4
      = (⟨255, 0⟩, [0, 0, 7, 7], 2) ∧
    (2 : Nat) ≠ [(0 : Nat)].length ∧
    COBS_encode [1, 0, 2, 3, 4, 0, 0, 5, 6, 7, 8] false
      = [0, 2, 1, 4, 2, 3, 4, 1, 5, 5, 6, 7, 8, 0] ∧
    COBS_decode_run (COBS_encode [1, 0, 2, 3, 4, 0, 0, 5, 6, 7, 8] false)
        ⟨255, 255⟩ (List.replicate 16 9) 16
      = (⟨255, 0⟩, [1, 0, 2, 3, 4, 0, 0, 5, 6, 7, 8, 9, 9, 9, 9, 9], 11) := by
  decide

/-- C4: the COBS decoder abandons an overrun frame, but the ESCS decoder
does not: after the overrun return of `size + 1` it stops writing, yet it
leaves `count` at `size`, so the closing delimiter still reports a
completed (truncated) message of length `size`.  Here the encoded frame
`7E 01 02 03 7E` is fed to a 2-byte destination: the third payload byte
returns `size + 1 = 3`, and the final delimiter returns 2 with the
truncated prefix `[1, 2]` in the destination, instead of reporting no
message. -/
theorem escs_overrun_code_bug :
    (ESCS_decode_run [126, 1, 2, 3] ⟨0, 0⟩ [9, 9] 2).2.2 = 3 ∧
    ESCS_decode_run [126, 1, 2, 3, 126] ⟨0, 0⟩ [9, 9] 2
      = (⟨255, 0⟩, [1, 2], 2) ∧
    (2 : Nat) ≠ 0 := by
  decide

/-! ## Bit-field helper lemmas -/

/-- Setting the enable bit leaves the byte-width field unchanged. -/
theorem lor_one_and_fourteen (t : Nat) : (t ||| 1) &&& 14 = t &&& 14 := by
  rw [Nat.and_distrib_right, show (1 : Nat) &&& 14 = 0 from rfl, Nat.or_zero]

/-- Setting the enable bit makes the enable field 1. -/
theorem lor_one_and_one (t : Nat) : (t ||| 1) &&& 1 = 1 := by
  rw [Nat.and_distrib_right, Nat.and_one_is_mod,
    show (1 : Nat) &&& 1 = 1 from rfl]
  rcases Nat.mod_two_eq_zero_or_one t with h | h <;> rw [h] <;> rfl

/-- Masking with the disable mask leaves the byte-width field unchanged. -/
theorem and_disable_and_fourteen (t : Nat) : (t &&& 65534) &&& 14 = t &&& 14 := by
  rw [Nat.and_assoc, show (65534 : Nat) &&& 14 = 14 from rfl]

/-- Masking with the disable mask clears the enable field. -/
theorem and_disable_and_one (t : Nat) : (t &&& 65534) &&& 1 = 0 := by
  rw [Nat.and_assoc, show (65534 : Nat) &&& 1 = 0 from rfl, Nat.and_zero]

/-- The source byte footprint of a cell equals the spec formula
`count × max(byte_width, 1)`. -/
theorem dataCell_Bytes_eq (dC : DataCell) :
    dataCell_Bytes dC = dC.count * max (dC.type &&& 14) 1 := by
  unfold dataCell_Bytes
  rcases Nat.eq_zero_or_pos (dC.type &&& 14) with h | h
  · simp [h]
  · have hmax : max (dC.type &&& 14) 1 = dC.type &&& 14 := Nat.max_eq_left h
    simp [Nat.pos_iff_ne_zero.mp h, hmax]

/-- The width-or-one fallback of the interpreter equals `max width 1`. -/
theorem ite_width_max (w : Nat) : (if w = 0 then 1 else w) = max w 1 := by
  rcases Nat.eq_zero_or_pos w with h | h
  · simp [h]
  · simp [Nat.pos_iff_ne_zero.mp h, Nat.max_eq_left h]

/-- The enabled-footprint conditional of the seek loop is `cellTerm`. -/
theorem ite_bytes_eq_cellTerm (dC : DataCell) :
    (if dC.type &&& 1 ≠ 0 then dataCell_Bytes dC else 0) = cellTerm dC := by
  by_cases h : dC.type &&& 1 = 0
  · simp [h, cellTerm]
  · simp [h, cellTerm, dataCell_Bytes_eq]

/-! ## cellSum lemmas -/

/-- Unfolding lemma for `cellSum` on a cons cell. -/
theorem cellSum_cons (dC : DataCell) (dCs : List DataCell) :
    cellSum (dC :: dCs) = cellTerm dC + cellSum dCs := by
  simp [cellSum]

/-- Unfolding lemma for `cellSum` on an appended cell. -/
theorem cellSum_append_single (dCs : List DataCell) (x : DataCell) :
    cellSum (dCs ++ [x]) = cellSum dCs + cellTerm x := by
  simp [cellSum]

/-- Replacing the cell at index `i` exchanges its `cellTerm` contribution
in the sum. -/
theorem cellSum_set (dCs : List DataCell) (i : Nat) (x dC : DataCell)
    (h : dCs.get? i = some dC) :
    cellSum (dCs.set i x) + cellTerm dC = cellSum dCs + cellTerm x := by
  induction dCs generalizing i with
  | nil => simp at h
  | cons c cs ih =>
    cases i with
    | zero =>
      simp at h
      subst h
      simp [cellSum_cons]
      omega
    | succ n =>
      rw [List.get?_cons_succ] at h
      have := ih n h
      simp [cellSum_cons]
      omega

/-! ## Seek lemmas -/

/-- The seek loop returns the cell at position `num` of the chain. -/
theorem seekAux_fst (n : Nat) (dCs : List DataCell) (pos : Nat) :
    (lasso_hostSeekDatacellAux n dCs pos).1 = dCs.get? n := by
  induction n generalizing dCs pos with
  | zero => cases dCs <;> simp [lasso_hostSeekDatacellAux]
  | succ n ih =>
    cases dCs with
    | nil => simp [lasso_hostSeekDatacellAux]
    | cons c cs => simp [lasso_hostSeekDatacellAux, ih]

/-- The seek loop accumulates the enabled footprints of the cells it
passes over. -/
theorem seekAux_snd (n : Nat) (dCs : List DataCell) (pos : Nat) :
    (lasso_hostSeekDatacellAux n dCs pos).2 = pos + cellSum (dCs.take n) := by
  induction n generalizing dCs pos with
  | zero => cases dCs <;> simp [lasso_hostSeekDatacellAux, cellSum]
  | succ n ih =>
    cases dCs with
    | nil => simp [lasso_hostSeekDatacellAux, cellSum]
    | cons c cs =>
      rw [lasso_hostSeekDatacellAux, ih, List.take_succ_cons, cellSum_cons,
        ite_bytes_eq_cellTerm]
      omega

/-! ## Strobe-size-law preservation lemmas -/

/-- Registration adds the new cell both to the chain and (when enabled) to
`strobe.Bytes_total`, preserving the size law up to a constant. -/
theorem register_preserves_law (cfg : Config) (ty cnt r : Nat)
    (st : HostState) (K : Nat)
    (h : st.strobe.Bytes_total = cellSum st.dataCells + K) :
    (lasso_hostRegisterDataCell cfg ty cnt r st).strobe.Bytes_total
      = cellSum (lasso_hostRegisterDataCell cfg ty cnt r st).dataCells + K := by
  unfold lasso_hostRegisterDataCell
  dsimp only []
  rw [cellSum_append_single]
  by_cases he : (if ty &&& 512 ≠ 0 then ty ||| 1 else ty) &&& 1 ≠ 0
  · rw [if_pos he]
    simp only [cellTerm]
    rw [if_pos he, dataCell_Bytes_eq]
    dsimp only []
    rw [h]
    omega
  · rw [if_neg he]
    simp only [cellTerm]
    rw [if_neg he, h]
    omega

/-- A SetDataCellStrobe command moves exactly the toggled contribution of
the addressed cell between the chain sum and `strobe.Bytes_total`,
preserving the size law up to a constant. -/
theorem strobeCmd_preserves_law (num : Nat) (b : Bool) (st : HostState)
    (K : Nat) (h : st.strobe.Bytes_total = cellSum st.dataCells + K) :
    (lasso_cmdSetDataCellStrobe num b st).strobe.Bytes_total
      = cellSum (lasso_cmdSetDataCellStrobe num b st).dataCells + K := by
  unfold lasso_cmdSetDataCellStrobe
  by_cases hs : st.lasso_strobing
  · rw [if_pos hs]
    exact h
  · have hfst : (lasso_hostSeekDatacell st.dataCells num).1
        = st.dataCells.get? num := seekAux_fst num st.dataCells 0
    rw [if_neg hs]
    split
    next hmatch => exact h
    next dC hmatch =>
      have hget : st.dataCells.get? num = some dC := by rw [← hfst]; exact hmatch
      cases b with
      | true =>
        rw [if_pos rfl]
        by_cases he : dC.type &&& 1 = 0
        · rw [if_pos he]
          dsimp only []
          rw [ite_width_max]
          have hset := cellSum_set st.dataCells num
            { dC with type := dC.type ||| 1 } dC hget
          have hterm0 : cellTerm dC = 0 := by
            unfold cellTerm
            rw [if_neg (by simpa using he)]
          have hterm1 : cellTerm { dC with type := dC.type ||| 1 }
              = dC.count * max (dC.type &&& 14) 1 := by
            unfold cellTerm
            dsimp only []
            rw [lor_one_and_fourteen, if_pos (by rw [lor_one_and_one]; omega)]
          rw [hterm0, hterm1] at hset
          rw [h]
          omega
        · rw [if_neg he]
          exact h
      | false =>
        rw [if_neg (by simp)]
        by_cases he : dC.type &&& 1 ≠ 0
        · rw [if_pos he]
          dsimp only []
          rw [ite_width_max]
          have hset := cellSum_set st.dataCells num
            { dC with type := dC.type &&& 65534 } dC hget
          have hterm0 : cellTerm { dC with type := dC.type &&& 65534 } = 0 := by
            unfold cellTerm
            dsimp only []
            rw [if_neg (by rw [and_disable_and_one]; omega)]
          have hterm1 : cellTerm dC = dC.count * max (dC.type &&& 14) 1 := by
            unfold cellTerm
            rw [if_pos he]
          rw [hterm0, hterm1] at hset
          rw [h]
          omega
        · rw [if_neg he]
          exact h

/-- Data-space operations preserve the size law up to a constant. -/
theorem applyDataOp_preserves_law (cfg : Config) (op : DataOp)
    (st : HostState) (K : Nat)
    (h : st.strobe.Bytes_total = cellSum st.dataCells + K) :
    (applyDataOp cfg op st).strobe.Bytes_total
      = cellSum (applyDataOp cfg op st).dataCells + K := by
  cases op with
  | register ty cnt r => exact register_preserves_law cfg ty cnt r st K h
  | strobeCmd num b => exact strobeCmd_preserves_law num b st K h

/-- A sequence of data-space operations preserves the size law up to a
constant. -/
theorem applyDataOps_preserves_law (cfg : Config) (ops : List DataOp)
    (st : HostState) (K : Nat)
    (h : st.strobe.Bytes_total = cellSum st.dataCells + K) :
    (applyDataOps cfg ops st).strobe.Bytes_total
      = cellSum (applyDataOps cfg ops st).dataCells + K := by
  induction ops generalizing st with
  | nil => simpa [applyDataOps] using h
  | cons op ops ih =>
    have h1 := applyDataOp_preserves_law cfg op st K h
    simpa [applyDataOps] using ih (applyDataOp cfg op st) h1

/-- Data-space operations never touch the stored mask byte count. -/
theorem applyDataOp_mask (cfg : Config) (op : DataOp) (st : HostState) :
    (applyDataOp cfg op st).dataCellMaskBytes = st.dataCellMaskBytes := by
  cases op with
  | register ty cnt r => simp [applyDataOp, lasso_hostRegisterDataCell]
  | strobeCmd num b =>
    simp only [applyDataOp]
    unfold lasso_cmdSetDataCellStrobe
    by_cases hs : st.lasso_strobing
    · rw [if_pos hs]
    · rw [if_neg hs]
      split
      next hmatch => rfl
      next dC hmatch =>
        cases b with
        | true =>
          rw [if_pos rfl]
          by_cases he : dC.type &&& 1 = 0
          · rw [if_pos he]
          · rw [if_neg he]
        | false =>
          rw [if_neg (by simp)]
          by_cases he : dC.type &&& 1 ≠ 0
          · rw [if_pos he]
          · rw [if_neg he]

/-- A sequence of data-space operations never touches the stored mask
byte count. -/
theorem applyDataOps_mask (cfg : Config) (ops : List DataOp)
    (st : HostState) :
    (applyDataOps cfg ops st).dataCellMaskBytes = st.dataCellMaskBytes := by
  induction ops generalizing st with
  | nil => rfl
  | cons op ops ih =>
    simpa [applyDataOps, applyDataOp_mask] using
      ih (applyDataOp cfg op st)

/-- `lasso_hostRegisterMEM` leaves the cell chain unchanged and raises
`strobe.Bytes_total` by exactly the head and tail reservations of the
size law, storing the dynamic mask byte count it reserved. -/
theorem registerMEM_law (cfg : Config) (st : HostState)
    (h : st.strobe.Bytes_total = cellSum st.dataCells) :
    (lasso_hostRegisterMEM cfg st).dataCells = st.dataCells ∧
    (lasso_hostRegisterMEM cfg st).strobe.Bytes_total
      = cellSum st.dataCells
        + (if cfg.strobe_dynamic then
            (lasso_hostRegisterMEM cfg st).dataCellMaskBytes else 0)
        + (if cfg.strobe_crc_enable then cfg.crc_bytewidth else 0)
        + (if cfg.strobe_encoding = Encoding.COBS ∨
              cfg.strobe_encoding = Encoding.ESCS then 1 else 0) := by
  rcases cfg with ⟨ce, se, dyn, scrc, ccrc, cw, cbs, ctt, rbs, rlt, spt,
    spmin, spmax, apt, rtl, mfs, hts⟩
  cases ce <;> cases se <;> cases dyn <;> cases scrc <;> cases ccrc <;>
    simp [lasso_hostRegisterMEM, h] <;> omega

/-- C2: the strobe size law.  For every configuration, after any sequence
of data-cell registrations, then `lasso_hostRegisterMEM`, then any further
sequence of registrations and SetDataCellStrobe commands,
`strobe.Bytes_total` equals the sum over enabled cells of
`count × max(byte_width, 1)`, plus the dynamic-mask bytes in dynamic mode,
plus the CRC byte width when the strobe CRC is enabled, plus one byte for
the MsgPack disambiguator when the strobe encoding is COBS or ESCS. -/
theorem strobe_size_law (cfg : Config) (pre post : List DataOp) :
    (applyDataOps cfg post (lasso_hostRegisterMEM cfg
        (applyDataOps cfg pre (initState cfg)))).strobe.Bytes_total
      = strobeSizeLawRhs cfg (applyDataOps cfg post (lasso_hostRegisterMEM cfg
          (applyDataOps cfg pre (initState cfg)))) := by
  have h0 : (applyDataOps cfg pre (initState cfg)).strobe.Bytes_total
      = cellSum (applyDataOps cfg pre (initState cfg)).dataCells + 0 := by
    apply applyDataOps_preserves_law
    simp [initState, cellSum]
  rw [Nat.add_zero] at h0
  obtain ⟨hcells, htotal⟩ :=
    registerMEM_law cfg (applyDataOps cfg pre (initState cfg)) h0
  have hlaw := applyDataOps_preserves_law cfg post
    (lasso_hostRegisterMEM cfg (applyDataOps cfg pre (initState cfg)))
    ((if cfg.strobe_dynamic then
        (lasso_hostRegisterMEM cfg
          (applyDataOps cfg pre (initState cfg))).dataCellMaskBytes else 0)
      + (if cfg.strobe_crc_enable then cfg.crc_bytewidth else 0)
      + (if cfg.strobe_encoding = Encoding.COBS ∨
            cfg.strobe_encoding = Encoding.ESCS then 1 else 0))
    (by rw [htotal, hcells]; omega)
  have hmask := applyDataOps_mask cfg post
    (lasso_hostRegisterMEM cfg (applyDataOps cfg pre (initState cfg)))
  unfold strobeSizeLawRhs
  rw [hlaw, hmask]
  omega

/-- C5: `lasso_hostSeekDatacell` returns the cell at the requested index
of the registration order (`none` past the end) together with the byte
offset `Σ count × max(byte_width, 1)` over the enabled cells strictly
before it; disabled preceding cells and the target cell itself contribute
nothing.  This offset is the value the GetDataCellParams handler forwards
into its reply. -/
theorem lasso_hostSeekDatacell_spec (dCs : List DataCell) (num : Nat) :
    lasso_hostSeekDatacell dCs num = (dCs.get? num, cellSum (dCs.take num)) := by
  unfold lasso_hostSeekDatacell
  rw [Prod.ext_iff]
  exact ⟨seekAux_fst num dCs 0, by rw [seekAux_snd, Nat.zero_add]⟩

/-- C9: `lasso_hostCountdown` subtracts `count` exactly when it does not
exceed the running countdown and otherwise clamps to 0; the countdown
never wraps below zero (the result never exceeds the old value). -/
theorem lasso_hostCountdown_spec (count : Nat) (st : HostState) :
    (lasso_hostCountdown count st).strobe.countdown
        = (if count ≤ st.strobe.countdown then st.strobe.countdown - count
           else 0) ∧
    (lasso_hostCountdown count st).strobe.countdown ≤ st.strobe.countdown := by
  by_cases h : count ≤ st.strobe.countdown
  · have h2 : ¬ count > st.strobe.countdown := by omega
    simp [lasso_hostCountdown, h, h2]
  · have h2 : count > st.strobe.countdown := by omega
    simp [lasso_hostCountdown, h, h2]

/-- C10: before `lasso_hostRegisterMEM` has allocated the receive buffer,
a tick of `lasso_hostHandleCOM` returns immediately: the state (scheduler,
strobe, response, timestamp) is returned unchanged and no transmit attempt
is made. -/
theorem lasso_hostHandleCOM_noop_before_MEM (cfg : Config) (env : Env)
    (st : HostState) (h : st.receiveBufferAllocated = false) :
    lasso_hostHandleCOM cfg env st = some (st, []) := by
  unfold lasso_hostHandleCOM
  simp [h]

/-- Witness for C10 at the freshly initialised host. -/
theorem lasso_hostHandleCOM_noop_before_MEM_witness :
    lasso_hostHandleCOM sampleCfg sampleEnv (initState sampleCfg)
      = some (initState sampleCfg, []) :=
  lasso_hostHandleCOM_noop_before_MEM sampleCfg sampleEnv
    (initState sampleCfg) rfl

/-! ## SetDataCellStrobe reduction lemmas -/

/-- While strobing is on, a SetDataCellStrobe command has no effect. -/
theorem setDataCellStrobe_noop_when_strobing (num : Nat) (b : Bool)
    (st : HostState) (hs : st.lasso_strobing = true) :
    lasso_cmdSetDataCellStrobe num b st = st := by
  unfold lasso_cmdSetDataCellStrobe
  rw [if_pos hs]

/-- Enabling a currently disabled cell: the enable bit is set and
`count × max(byte_width, 1)` is added to `strobe.Bytes_total`.  No
hypothesis on the permanent bit is needed. -/
theorem setDataCellStrobe_enable_eq (num : Nat) (st : HostState)
    (dC : DataCell) (hs : st.lasso_strobing = false)
    (hget : st.dataCells.get? num = some dC) (he : dC.type &&& 1 = 0) :
    lasso_cmdSetDataCellStrobe num true st
      = { st with
          dataCells := st.dataCells.set num { dC with type := dC.type ||| 1 }
          strobe := { st.strobe with Bytes_total :=
            st.strobe.Bytes_total + dC.count * max (dC.type &&& 14) 1 } } := by
  unfold lasso_cmdSetDataCellStrobe
  rw [if_neg (by rw [hs]; exact Bool.false_ne_true)]
  have hfst : (lasso_hostSeekDatacell st.dataCells num).1
      = st.dataCells.get? num := seekAux_fst num st.dataCells 0
  split
  next hmatch =>
    rw [hfst, hget] at hmatch
    exact absurd hmatch (by simp)
  next dC2 hmatch =>
    rw [hfst, hget] at hmatch
    injection hmatch with hdc
    subst hdc
    rw [if_pos rfl, if_pos he]
    dsimp only []
    rw [ite_width_max]

/-- Disabling a currently enabled cell: the enable bit is cleared and
`count × max(byte_width, 1)` is subtracted from `strobe.Bytes_total`.  No
hypothesis on the permanent bit is needed: the source never checks it. -/
theorem setDataCellStrobe_disable_eq (num : Nat) (st : HostState)
    (dC : DataCell) (hs : st.lasso_strobing = false)
    (hget : st.dataCells.get? num = some dC) (he : dC.type &&& 1 ≠ 0) :
    lasso_cmdSetDataCellStrobe num false st
      = { st with
          dataCells := st.dataCells.set num
            { dC with type := dC.type &&& 65534 }
          strobe := { st.strobe with Bytes_total :=
            st.strobe.Bytes_total - dC.count * max (dC.type &&& 14) 1 } } := by
  unfold lasso_cmdSetDataCellStrobe
  rw [if_neg (by rw [hs]; exact Bool.false_ne_true)]
  have hfst : (lasso_hostSeekDatacell st.dataCells num).1
      = st.dataCells.get? num := seekAux_fst num st.dataCells 0
  split
  next hmatch =>
    rw [hfst, hget] at hmatch
    exact absurd hmatch (by simp)
  next dC2 hmatch =>
    rw [hfst, hget] at hmatch
    injection hmatch with hdc
    subst hdc
    rw [if_neg (by simp), if_pos he]
    dsimp only []
    rw [ite_width_max]

/-- C3 counterexample: the claim that a cell whose permanent bit is set
cannot be disabled is false.  `samplePermanentState` holds one enabled
cell with the permanent bit (type 0x0223); a SetDataCellStrobe disable
command while strobing is off clears its enable bit (type becomes 0x0222)
and removes its 8 bytes from `strobe.Bytes_total`. -/
theorem setDataCellStrobe_disables_permanent_counterexample :
    ((547 : Nat) &&& 512 ≠ 0) ∧ ((547 : Nat) &&& 1 ≠ 0) ∧
    samplePermanentState.dataCells = [⟨547, 4, 65537⟩] ∧
    samplePermanentState.lasso_strobing = false ∧
    ((lasso_cmdSetDataCellStrobe 0 false samplePermanentState).dataCells.get? 0
      = some ⟨546, 4, 65537⟩) ∧
    ((546 : Nat) &&& 1 = 0) ∧
    (lasso_cmdSetDataCellStrobe 0 false samplePermanentState).strobe.Bytes_total
      = 2 := by
  decide

/-- C3 (amended): when strobing is on a SetDataCellStrobe command has no
effect; when strobing is off, enabling a currently disabled cell adds
`count × byte_width` (width 0 counting as 1) to `strobe.Bytes_total` and
sets its enable bit, and disabling a currently enabled cell subtracts the
same amount and clears the bit — regardless of the permanent bit, which
only forces a cell to be enabled at registration and is never checked by
the command. -/
theorem lasso_cmdSetDataCellStrobe_behavior (num : Nat) (st : HostState) :
    (∀ b, st.lasso_strobing = true →
      lasso_cmdSetDataCellStrobe num b st = st) ∧
    (st.lasso_strobing = false →
      ∀ dC, st.dataCells.get? num = some dC →
        (dC.type &&& 1 = 0 →
          lasso_cmdSetDataCellStrobe num true st
            = { st with
                dataCells := st.dataCells.set num
                  { dC with type := dC.type ||| 1 }
                strobe := { st.strobe with Bytes_total :=
                  (st.strobe.Bytes_total
                    + dC.count * max (dC.type &&& 14) 1) } } ∧
          (dC.type ||| 1) &&& 1 ≠ 0) ∧
        (dC.type &&& 1 ≠ 0 →
          lasso_cmdSetDataCellStrobe num false st
            = { st with
                dataCells := st.dataCells.set num
                  { dC with type := dC.type &&& 65534 }
                strobe := { st.strobe with Bytes_total :=
                  (st.strobe.Bytes_total
                    - dC.count * max (dC.type &&& 14) 1) } } ∧
          (dC.type &&& 65534) &&& 1 = 0)) :=
  ⟨fun b hs => setDataCellStrobe_noop_when_strobing num b st hs,
   fun hs dC hget =>
    ⟨fun he => ⟨setDataCellStrobe_enable_eq num st dC hs hget he,
        by rw [lor_one_and_one]; omega⟩,
     fun he => ⟨setDataCellStrobe_disable_eq num st dC hs hget he,
        and_disable_and_one dC.type⟩⟩⟩

/-- Witness for the amended C3 at the permanent-cell host state. -/
theorem lasso_cmdSetDataCellStrobe_behavior_witness :
    lasso_cmdSetDataCellStrobe 0 false samplePermanentState
      = { samplePermanentState with
          dataCells := samplePermanentState.dataCells.set 0
            ⟨(547 : Nat) &&& 65534, 4, 65537⟩
          strobe := { samplePermanentState.strobe with Bytes_total :=
            (samplePermanentState.strobe.Bytes_total
              - 4 * max ((547 : Nat) &&& 14) 1) } } :=
  (((lasso_cmdSetDataCellStrobe_behavior 0 samplePermanentState).2 rfl
      ⟨547, 4, 65537⟩ rfl).2 (by decide)).1

/-- C6 counterexample: the SetAdvertise handler does not zero
`strobe.Byte_count`.  At `sampleAdvertiseState` (advertising, 16 signature
bytes still in flight) the command leaves `Byte_count` at 16, and the very
next transmit pump makes a strobe-frame transmit attempt with those stale
bytes. -/
theorem lasso_cmdSetAdvertise_counterexample :
    sampleAdvertiseState.lasso_advertise = true ∧
    sampleAdvertiseState.strobe.Byte_count = 16 ∧
    (lasso_cmdSetAdvertise sampleAdvertiseState).strobe.Byte_count = 16 ∧
    ((16 : Nat) ≠ 0) ∧
    (lasso_TXpump sampleCfg sampleEnv
        (lasso_cmdSetAdvertise sampleAdvertiseState)).2 = [TxTarget.strobe] := by
  decide

/-- C6 (amended): SetAdvertise sets advertising on and strobing off but
leaves the strobe frame (and in particular `strobe.Byte_count`)
untouched; the cancellation of an in-flight advertise strobe by zeroing
`strobe.Byte_count` is performed by the SetDataSpaceStrobe handler when it
finds advertising active (which it also switches off). -/
theorem lasso_cmdSetAdvertise_spec (st : HostState) (lparam : Nat) :
    (lasso_cmdSetAdvertise st).lasso_advertise = true ∧
    (lasso_cmdSetAdvertise st).lasso_strobing = false ∧
    (lasso_cmdSetAdvertise st).strobe = st.strobe ∧
    (st.lasso_advertise = true →
      (lasso_cmdSetDataSpaceStrobe lparam st).strobe.Byte_count = 0 ∧
      (lasso_cmdSetDataSpaceStrobe lparam st).lasso_advertise = false) := by
  refine ⟨?_, ?_, ?_, fun ha => ?_⟩
  · unfold lasso_cmdSetAdvertise
    by_cases hs : st.lasso_strobing <;> simp [hs]
  · unfold lasso_cmdSetAdvertise
    by_cases hs : st.lasso_strobing <;> simp [hs]
  · unfold lasso_cmdSetAdvertise
    by_cases hs : st.lasso_strobing <;> simp [hs]
  · unfold lasso_cmdSetDataSpaceStrobe
    by_cases hl : lparam ≠ 0
    · by_cases hstr : st.lasso_strobing <;> simp [hl, hstr, ha]
    · simp [hl, ha]

/-- Witness for the amended C6 at the mid-advertisement host state. -/
theorem lasso_cmdSetAdvertise_spec_witness :
    (lasso_cmdSetAdvertise sampleAdvertiseState).lasso_advertise = true ∧
    (lasso_cmdSetDataSpaceStrobe 1 sampleAdvertiseState).strobe.Byte_count
      = 0 :=
  ⟨(lasso_cmdSetAdvertise_spec sampleAdvertiseState 1).1,
   ((lasso_cmdSetAdvertise_spec sampleAdvertiseState 1).2.2.2 rfl).1⟩

/-! ## Transmit pump lemmas -/

/-- A frame with pending bytes always leads to a `comCallback` attempt. -/
theorem transmit_attempted_pos (cfg : Config) (busy isR adv : Bool)
    (el : Nat) (fr : DataFrame) (h : fr.Byte_count > 0) :
    (lasso_hostTransmitDataFrame cfg busy isR adv el fr).2.2 = true := by
  unfold lasso_hostTransmitDataFrame
  rw [if_pos h]
  dsimp only []
  repeat' split
  all_goals rfl

/-- A frame with no pending bytes is returned unchanged and produces no
`comCallback` attempt. -/
theorem transmit_attempted_zero (cfg : Config) (busy isR adv : Bool)
    (el : Nat) (fr : DataFrame) (h : fr.Byte_count = 0) :
    lasso_hostTransmitDataFrame cfg busy isR adv el fr = (fr, false, false) := by
  unfold lasso_hostTransmitDataFrame
  rw [if_neg (by omega)]

/-- With strobe bytes pending the pump attempts exactly one strobe-frame
transmission. -/
theorem TXpump_strobe (cfg : Config) (env : Env) (s1 : HostState)
    (h : s1.strobe.Byte_count ≠ 0) :
    (lasso_TXpump cfg env s1).2 = [TxTarget.strobe] := by
  unfold lasso_TXpump
  rw [if_neg h]
  dsimp only []
  rw [transmit_attempted_pos cfg env.comBusy false s1.lasso_advertise
    env.escsLen s1.strobe (by omega)]
  rw [if_pos rfl]

/-- With no strobe bytes pending the pump attempts at most one
response-frame transmission. -/
theorem TXpump_response (cfg : Config) (env : Env) (s1 : HostState)
    (h : s1.strobe.Byte_count = 0) :
    (lasso_TXpump cfg env s1).2 = [] ∨
    (lasso_TXpump cfg env s1).2 = [TxTarget.response] := by
  unfold lasso_TXpump
  rw [if_pos h]
  dsimp only []
  by_cases hr : (lasso_hostTransmitDataFrame cfg env.comBusy true
      s1.lasso_advertise env.escsLen s1.response).2.2 = true
  · right
    rw [if_pos hr]
  · left
    rw [if_neg hr]

/-- C7: on a tick with the receive buffer allocated, at most one
`comCallback` transmit attempt is made; it targets the strobe frame
whenever `strobe.Byte_count` is non-zero after the pre-pump phases, and a
response-frame attempt only happens on ticks where the strobe has no
pending bytes. -/
theorem lasso_hostHandleCOM_tx (cfg : Config) (env : Env) (st s1 : HostState)
    (hAlloc : st.receiveBufferAllocated = true)
    (hPhases : lasso_handleCOMphases cfg env st = some s1) :
    ∃ s2 tx, lasso_hostHandleCOM cfg env st = some (s2, tx) ∧
      tx.length ≤ 1 ∧
      (s1.strobe.Byte_count ≠ 0 → tx = [TxTarget.strobe]) ∧
      (TxTarget.response ∈ tx → s1.strobe.Byte_count = 0) := by
  have hcom : lasso_hostHandleCOM cfg env st
      = some (if cfg.host_timestamp then
            { (lasso_TXpump cfg env s1).1 with lasso_timestamp :=
                (lasso_TXpump cfg env s1).1.lasso_timestamp + 1 }
          else (lasso_TXpump cfg env s1).1, (lasso_TXpump cfg env s1).2) := by
    unfold lasso_hostHandleCOM
    rw [if_neg (by simp [hAlloc]), hPhases]
  refine ⟨_, (lasso_TXpump cfg env s1).2, hcom, ?_, ?_, ?_⟩
  · by_cases hbc : s1.strobe.Byte_count = 0
    · rcases TXpump_response cfg env s1 hbc with h | h <;> rw [h] <;> simp
    · rw [TXpump_strobe cfg env s1 hbc]
      simp
  · intro hbc
    exact TXpump_strobe cfg env s1 hbc
  · intro hmem
    by_contra hbc
    rw [TXpump_strobe cfg env s1 hbc] at hmem
    simp at hmem

/-- Witness for C7 at the booted host on an idle tick. -/
theorem lasso_hostHandleCOM_tx_witness :
    ∃ s2 tx, lasso_hostHandleCOM sampleCfg sampleEnv sampleBootState
        = some (s2, tx) ∧ tx.length ≤ 1 := by
  obtain ⟨s2, tx, h1, h2, h3, h4⟩ := lasso_hostHandleCOM_tx sampleCfg
    sampleEnv sampleBootState sampleTickMid (by decide) (by decide)
  exact ⟨s2, tx, h1, h2⟩

/-- C8 counterexample: a `\n` whose immediately preceding received byte
was not `\r` does not always report `EILSEQ`.  After the complete command
`X\r\n` is consumed (index back at 0), a further `\n` — preceded by the
received byte `\n`, not `\r` — reports `ENODATA` and not `EILSEQ`. -/
theorem lasso_hostReceiveByte_lf_counterexample :
    (receiveBytes sampleCfg [88, 13, 10] sampleBootState).2 = 0 ∧
    (receiveBytes sampleCfg [88, 13, 10] sampleBootState).1.receiveBufferIndex
      = 0 ∧
    (lasso_hostReceiveByte sampleCfg 10
        (receiveBytes sampleCfg [88, 13, 10] sampleBootState).1).2
      = ENODATA ∧
    ENODATA ≠ EILSEQ ∧ ((10 : Nat) ≠ 13) := by
  decide

/-- C8 (amended): in RN command encoding, a `\n` arriving while the
receive buffer holds at least one byte (and is not full) whose last stored
byte is not `\r` resets the buffer index to zero and reports `EILSEQ`; a
`\n` on an empty buffer reports `ENODATA` and leaves the state unchanged;
any byte arriving on a full buffer resets the index and reports
`EOVERFLOW`. -/
theorem lasso_hostReceiveByte_nl_spec (cfg : Config) (st : HostState) :
    (st.receiveBufferIndex < cfg.command_buffer_size →
      st.receiveBufferIndex ≠ 0 →
      st.receiveBuffer.getD (st.receiveBufferIndex - 1) 0 ≠ 13 →
      lasso_hostReceiveByte cfg 10 st
        = ({ st with receiveBufferIndex := 0 }, EILSEQ)) ∧
    (st.receiveBufferIndex < cfg.command_buffer_size →
      st.receiveBufferIndex = 0 →
      lasso_hostReceiveByte cfg 10 st = (st, ENODATA)) ∧
    (∀ b, ¬ st.receiveBufferIndex < cfg.command_buffer_size →
      lasso_hostReceiveByte cfg b st
        = ({ st with receiveBufferIndex := 0 }, EOVERFLOW)) := by
  refine ⟨fun hlt hne hcr => ?_, fun hlt hz => ?_, fun b hge => ?_⟩
  · unfold lasso_hostReceiveByte
    rw [if_pos hlt, if_pos rfl, if_neg hne, if_neg hcr]
  · unfold lasso_hostReceiveByte
    rw [if_pos hlt, if_pos rfl, if_pos hz]
  · unfold lasso_hostReceiveByte
    rw [if_neg hge]

/-- Witness for the amended C8 after one stored byte that is not a
carriage return. -/
theorem lasso_hostReceiveByte_nl_spec_witness :
    lasso_hostReceiveByte sampleCfg 10 sampleMidReceiveState
      = ({ sampleMidReceiveState with receiveBufferIndex := 0 }, EILSEQ) :=
  (lasso_hostReceiveByte_nl_spec sampleCfg sampleMidReceiveState).1
    (by decide) (by decide) (by decide)

end Lasso
